import Mathlib

/-!
# tfsec rule checks: `google-storage-enable-ubla` and `kubernetes-network-no-public-ingress`

A shallow embedding of the two rule registrations

* `internal/app/tfsec/rules/google/storage/enable_uniform_bucket_level_access.go`
* `internal/app/tfsec/rules/kubernetes/network/no_public_ingress_rule.go`

The `CheckFunc` bodies are translated from the source.  The packages they call
(`block`, `result`, `cidr`, `severity`) are not part of the two files; their
operations are modelled from the specification and each such definition says so.

A `CheckFunc` receives a mutable `result.Set` and a block.  It is embedded as a
function on a `CheckState`, the pair of the set's contents and the block the
call was given, so that its frame (what it may change) is a statement about the
code and not about the type of the embedding.
-/

set_option autoImplicit false

namespace Tfsec

/-! ## Values, attributes and blocks -/

/-- Modelled from the spec: the source range of a block or attribute
("file + start/end position"). -/
structure Range where
  Filename : String
  StartLine : Nat
  EndLine : Nat
  deriving DecidableEq, Repr

/-- Modelled from the spec: the scalars a known literal can carry. -/
inductive Scalar where
  | bool (b : Bool)
  | string (s : String)
  | number (n : Int)
  deriving DecidableEq, Repr

/-- Modelled from the spec: "KnownLiteral(typed scalar/list/map)". -/
inductive Literal where
  | scalar (s : Scalar)
  | list (items : List Scalar)
  | map (entries : List (String × Scalar))
  deriving DecidableEq, Repr

/-- Modelled from the spec: "Value: tagged union {KnownLiteral(typed
scalar/list/map), Unknown, Absent}". -/
inductive Value where
  | KnownLiteral (l : Literal)
  | Unknown
  | Absent
  deriving DecidableEq, Repr

/-- Modelled from the spec: `Value().IsKnown()`, the value is statically
determined; `Unknown` and `Absent` are the two "cannot decide" tags. -/
def Value.IsKnown : Value → Bool
  | .KnownLiteral _ => true
  | .Unknown => false
  | .Absent => false

/-- Modelled from the spec: "Attribute: name (string), a Value, a source
range", together with the `NilAttribute` sentinel that `GetAttribute` returns
for an undeclared name.  The non-owning parent back-reference is left out.
The sentinel is the value the source compares with `nil`. -/
inductive Attribute where
  | NilAttribute
  | mk (name : String) (value : Value) (range : Range)
  deriving DecidableEq, Repr

namespace Attribute

/-- Modelled from the spec: "`IsNil()` queries sentinel-ness on both Block and
Attribute". -/
def IsNil : Attribute → Bool
  | NilAttribute => true
  | mk _ _ _ => false

/-- Modelled from the spec: the attribute's Value; "a NilAttribute whose Value
is Absent". -/
def Value : Attribute → Tfsec.Value
  | NilAttribute => .Absent
  | mk _ v _ => v

/-- Modelled from the spec: the attribute's source range (the sentinel has an
empty one). -/
def Range : Attribute → Tfsec.Range
  | NilAttribute => ⟨"", 0, 0⟩
  | mk _ _ r => r

/-- Modelled from the spec: the type-narrowing accessor `IsTrue`; it "returns
false for any non-matching tag, including Unknown", and only the known boolean
literal `true` matches. -/
def IsTrue (a : Attribute) : Bool :=
  match a.Value with
  | .KnownLiteral (.scalar (.bool b)) => b
  | _ => false

/-- Modelled from the spec: the type-narrowing accessor `IsString`; true
exactly for a known string literal. -/
def IsString (a : Attribute) : Bool :=
  match a.Value with
  | .KnownLiteral (.scalar (.string _)) => true
  | _ => false

end Attribute

/-- Modelled from the spec: "Block: type, ordered sequence of labels, mapping
from attribute-name to Attribute, ordered sequence of child Blocks (names not
required unique), source range", together with the `NilBlock` sentinel.  The
attribute map is kept as the list of declared attributes, looked up by name. -/
inductive Block where
  | NilBlock
  | mk (type : String) (labels : List String) (attributes : List Attribute)
      (children : List Block) (range : Range)

namespace Block

/-- Modelled from the spec: "`IsNil()` queries sentinel-ness on both Block and
Attribute". -/
def IsNil : Block → Bool
  | NilBlock => true
  | mk _ _ _ _ _ => false

/-- Modelled from the spec: the block's type, e.g. "resource". -/
def TypeName : Block → String
  | NilBlock => ""
  | mk t _ _ _ _ => t

/-- Modelled from the spec: the block's ordered labels. -/
def Labels : Block → List String
  | NilBlock => []
  | mk _ ls _ _ _ => ls

/-- Modelled from the spec: the block's source range. -/
def Range : Block → Tfsec.Range
  | NilBlock => ⟨"", 0, 0⟩
  | mk _ _ _ _ r => r

/-- Modelled from the spec: the block's child blocks, in declaration order;
the sentinel has none. -/
def Children : Block → List Block
  | NilBlock => []
  | mk _ _ _ cs _ => cs

/-- Modelled from the spec: the block's declared attributes; the sentinel has
none. -/
def Attributes : Block → List Attribute
  | NilBlock => []
  | mk _ _ as _ _ => as

/-- Modelled from the spec: "`FullName()` produces a human-readable path (type
+ dotted labels)". -/
def FullName (b : Block) : String :=
  String.intercalate "." (b.TypeName :: b.Labels)

/-- The attribute of the given name among `as`, or the sentinel. -/
def findAttribute (name : String) : List Attribute → Attribute
  | [] => .NilAttribute
  | .NilAttribute :: rest => findAttribute name rest
  | .mk n v r :: rest => if n = name then .mk n v r else findAttribute name rest

/-- Modelled from the spec: "`GetAttribute(name)` returns the Attribute or a
NilAttribute whose Value is Absent". -/
def GetAttribute (b : Block) (name : String) : Attribute :=
  findAttribute name b.Attributes

/-- A child block matches a name when it is a real block of that type. -/
def IsNamed (name : String) (c : Block) : Bool :=
  !c.IsNil && c.TypeName = name

/-- Modelled from the spec: "`GetBlocks(name)` returns all matches as a
(possibly empty) ordered sequence — never absent". -/
def GetBlocks (b : Block) (name : String) : List Block :=
  b.Children.filter (IsNamed name)

/-- The first block of a sequence, or the sentinel when there is none. -/
def firstOrNil : List Block → Block
  | [] => NilBlock
  | c :: _ => c

/-- Modelled from the spec: "`GetBlock(name)` returns the first child block
matching name, or a NilBlock". -/
def GetBlock (b : Block) (name : String) : Block :=
  firstOrNil (b.GetBlocks name)

end Block

/-! ## Results -/

/-- Modelled from the spec: "DefaultSeverity (one of a fixed ordered set, e.g.
Low/Medium/High/Critical)". -/
inductive Severity where
  | Low
  | Medium
  | High
  | Critical
  deriving DecidableEq, Repr

/-- Modelled from the spec: "Result: description string, severity (inherited
from the Rule unless overridden), source range (defaults to the matched Block's
range), and an optional pointer to the specific Attribute that triggered the
finding".  A severity a check function has not overridden is `none`. -/
structure Result where
  description : String
  severity : Option Severity
  range : Tfsec.Range
  annotated : Option Attribute
  deriving DecidableEq, Repr

/-- The `%s` verb of `fmt.Sprintf` on a format given as characters: each `%s`
is replaced by the next argument, every other character is copied.  A `%s`
without an argument prints as Go does. -/
def sprintfChars : List Char → List String → List Char
  | [], _ => []
  | '%' :: 's' :: rest, a :: args => a.data ++ sprintfChars rest args
  | '%' :: 's' :: rest, [] => "%!s(MISSING)".data ++ sprintfChars rest []
  | c :: rest, args => c :: sprintfChars rest args

/-- Go's `fmt.Sprintf`, for formats whose only verb is `%s`. -/
def Sprintf (format : String) (args : List String) : String :=
  ⟨sprintfChars format.data args⟩

namespace Result

/-- Modelled from the spec: `result.New(resourceBlock)`, a fresh result for the
block; its range "defaults to the matched Block's range" and nothing else is
set. -/
def New (resourceBlock : Block) : Result :=
  { description := "", severity := none, range := resourceBlock.Range, annotated := none }

/-- Modelled from the spec: `WithDescription`, sets the description. -/
def WithDescription (r : Result) (description : String) : Result :=
  { r with description := description }

/-- Modelled from the spec: `WithDescription(format, args...)` as the
autogenerated rules call it: the description is the formatted text. -/
def WithDescriptionf (r : Result) (format : String) (args : List String) : Result :=
  { r with description := Sprintf format args }

/-- Modelled from the spec: `WithRange`, overrides the source range. -/
def WithRange (r : Result) (range : Tfsec.Range) : Result :=
  { r with range := range }

/-- Modelled from the spec: `WithAttributeAnnotation`, records "the specific
Attribute that triggered the finding". -/
def WithAttributeAnnotation (r : Result) (attr : Attribute) : Result :=
  { r with annotated := some attr }

/-- Modelled from the spec: `WithAttribute`, the annotation call of the
autogenerated rules. -/
def WithAttribute (r : Result) (attr : Attribute) : Result :=
  { r with annotated := some attr }

end Result

/-- The state a `CheckFunc` call runs on: the contents of the `result.Set` it
was handed and the block it was handed. -/
structure CheckState where
  set : List Result
  resourceBlock : Block

namespace CheckState

/-- Modelled from the spec: `set.Add(r)`, "an append-only collector": the
result goes to the end of the set. -/
def Add (st : CheckState) (r : Result) : CheckState :=
  { st with set := st.set ++ [r] }

/-- Modelled from the spec: `set.AddResult()` followed by the builder calls
`build` on the result it returns.  `AddResult` appends a fresh result for the
block the set is scoped to and returns a reference to it; the builder calls
update that result in place. -/
def AddResult (st : CheckState) (build : Result → Result) : CheckState :=
  { st with set := st.set ++ [build (Result.New st.resourceBlock)] }

end CheckState

/-! ## The CIDR analyzer -/

namespace cidr

/-- A parsed IP network: the address family and the length of the mask. -/
structure Network where
  IsIPv6 : Bool
  PrefixLen : Nat
  deriving DecidableEq, Repr

/-- Value of a decimal digit. -/
def digitValue (c : Char) : Option Nat :=
  if 48 ≤ c.toNat ∧ c.toNat ≤ 57 then some (c.toNat - 48) else none

/-- Value of a hexadecimal digit. -/
def hexValue (c : Char) : Option Nat :=
  if 48 ≤ c.toNat ∧ c.toNat ≤ 57 then some (c.toNat - 48)
  else if 97 ≤ c.toNat ∧ c.toNat ≤ 102 then some (c.toNat - 87)
  else if 65 ≤ c.toNat ∧ c.toNat ≤ 70 then some (c.toNat - 55)
  else none

/-- Reads digits in the given base, most significant first, onto `acc`. -/
def readDigits (base : Nat) (digit : Char → Option Nat) : Nat → List Char → Option Nat
  | acc, [] => some acc
  | acc, c :: cs =>
    match digit c with
    | some d => readDigits base digit (base * acc + d) cs
    | none => none

/-- A number of one to `maxLen` digits. -/
def parseNumber (base : Nat) (digit : Char → Option Nat) (maxLen : Nat) (cs : List Char) :
    Option Nat :=
  if cs = [] ∨ maxLen < cs.length then none else readDigits base digit 0 cs

/-- The pieces of `cs` between occurrences of `sep`. -/
def splitOn (sep : Char) : List Char → List (List Char)
  | [] => [[]]
  | c :: cs =>
    if c = sep then [] :: splitOn sep cs
    else
      match splitOn sep cs with
      | [] => [[c]]
      | g :: gs => (c :: g) :: gs

/-- The text before and after the first occurrence of `sep`, if there is one. -/
def cutAt (sep : Char) : List Char → Option (List Char × List Char)
  | [] => none
  | c :: cs =>
    if c = sep then some ([], cs)
    else
      match cutAt sep cs with
      | some (l, r) => some (c :: l, r)
      | none => none

/-- The text before and after the first "::", if there is one. -/
def cutAtEllipsis : List Char → Option (List Char × List Char)
  | [] => none
  | [_] => none
  | c :: d :: cs =>
    if c = ':' ∧ d = ':' then some ([], cs)
    else
      match cutAtEllipsis (d :: cs) with
      | some (l, r) => some (c :: l, r)
      | none => none

/-- A dotted-quad IPv4 address: four decimal fields of value at most 255. -/
def isIPv4 (cs : List Char) : Bool :=
  let fields := splitOn '.' cs
  fields.length == 4 &&
    fields.all (fun f =>
      match parseNumber 10 digitValue 3 f with
      | some n => n ≤ 255
      | none => false)

/-- Colon-separated groups of one to four hexadecimal digits; the empty text
has no groups. -/
def hexGroups (cs : List Char) : Option Nat :=
  if cs = [] then some 0
  else
    let groups := splitOn ':' cs
    if groups.all (fun g => (parseNumber 16 hexValue 4 g).isSome) then some groups.length
    else none

/-- An IPv6 address: eight groups, or fewer around a single "::". -/
def isIPv6 (cs : List Char) : Bool :=
  match cutAtEllipsis cs with
  | none => hexGroups cs == some 8
  | some (l, r) =>
    match hexGroups l, hexGroups r with
    | some m, some n => (cutAtEllipsis r).isNone && m + n ≤ 7
    | _, _ => false

/-- Modelled from the spec: "Parse the string as an IP network", for the text
forms `a.b.c.d/len` (len at most 32) and colon-hexadecimal `x:x::x/len` (len at
most 128). -/
def ParseCIDR (s : String) : Option Network :=
  match cutAt '/' s.data with
  | none => none
  | some (addr, mask) =>
    match parseNumber 10 digitValue 3 mask with
    | none => none
    | some len =>
      if isIPv4 addr then (if len ≤ 32 then some ⟨false, len⟩ else none)
      else if isIPv6 addr then (if len ≤ 128 then some ⟨true, len⟩ else none)
      else none

/-- Modelled from the spec: `cidr.IsOpen(attribute)`.  "If the Value is not a
known string, return false.  Parse the string as an IP network.  Parse failure →
return false.  An IPv4 network is open if its prefix length is 0.  An IPv6
network is open under the analogous test against ::/0." -/
def IsOpen (attr : Attribute) : Bool :=
  match attr.Value with
  | .KnownLiteral (.scalar (.string s)) =>
    match ParseCIDR s with
    | some network => network.PrefixLen == 0
    | none => false
  | _ => false

end cidr

/-! ## Rules -/

/-- Modelled from the spec: the provider scope of a rule. -/
inductive Provider where
  | GCPProvider
  | KubernetesProvider
  deriving DecidableEq, Repr

/-- Modelled from the spec: "Rule: immutable descriptor — provider scope,
service, short code, a list of required block types, a list of required labels
(positional match), a default severity, and a check function".  The
documentation is presentation only and is not carried. -/
structure Rule where
  Provider : Provider
  Service : String
  ShortCode : String
  RequiredTypes : List String
  RequiredLabels : List String
  DefaultSeverity : Severity
  CheckFunc : CheckState → CheckState

namespace Rule

/-- Modelled from the spec: the Scan Engine's applicability test, "the set of
Rules whose RequiredTypes contains the Block's type AND whose RequiredLabels is a
prefix-match (position-by-position) of the Block's labels". -/
def Applies (rule : Rule) (b : Block) : Bool :=
  rule.RequiredTypes.contains b.TypeName && rule.RequiredLabels.isPrefixOf b.Labels

/-- Modelled from the spec: the severity the Scan Engine reports for a result,
"defaulting severity from the Rule where the check function did not override
it". -/
def SeverityOf (rule : Rule) (r : Result) : Severity :=
  r.severity.getD rule.DefaultSeverity

/-- Runs the rule's check function on a block with a set holding `results`, and
gives the contents of the set afterwards. -/
def Check (rule : Rule) (results : List Result) (b : Block) : List Result :=
  (rule.CheckFunc ⟨results, b⟩).set

end Rule

/-- The `CheckFunc` of `enable_uniform_bucket_level_access.go`. -/
def enableUblaCheckFunc (st : CheckState) : CheckState :=
  let attr := st.resourceBlock.GetAttribute "uniform_bucket_level_access"
  if attr = Attribute.NilAttribute then
    st.Add
      ((Result.New st.resourceBlock).WithDescription
        (Sprintf "Resource '%s' does not have uniform_bucket_level_access enabled."
          [st.resourceBlock.FullName]))
  else if attr.Value.IsKnown && !attr.IsTrue then
    st.Add
      ( Result.WithAttributeAnnotation
        (((Result.New st.resourceBlock).WithDescription
          (Sprintf "Resource '%s' has uniform_bucket_level_access explicitly disabled."
            [st.resourceBlock.FullName])).WithRange attr.Range)
        attr)
  else st

/-- The rule registered by `enable_uniform_bucket_level_access.go`. -/
def enableUblaRule : Rule where
  Provider := .GCPProvider
  Service := "storage"
  ShortCode := "enable-ubla"
  RequiredTypes := ["resource"]
  RequiredLabels := ["google_storage_bucket"]
  DefaultSeverity := .Medium
  CheckFunc := enableUblaCheckFunc

/-- One iteration of the loop over the `from` blocks in
`no_public_ingress_rule.go`. -/
def noPublicIngressStep (st : CheckState) (fromBlock : Block) : CheckState :=
  let cidrAttr := (fromBlock.GetBlock "ip_block").GetAttribute "cidr"
  if cidrAttr.IsString then
    if cidr.IsOpen cidrAttr then
      st.AddResult (fun r =>
        (r.WithDescriptionf "Resource '%s' allows ingress traffic from the internet"
          [st.resourceBlock.FullName]).WithAttribute cidrAttr)
    else st
  else st

/-- The `CheckFunc` of `no_public_ingress_rule.go`. -/
def noPublicIngressCheckFunc (st : CheckState) : CheckState :=
  let ingressBlock := (st.resourceBlock.GetBlock "spec").GetBlock "ingress"
  if ingressBlock.IsNil || (ingressBlock.GetBlocks "from").length == 0 then
    st.AddResult (fun r =>
      r.WithDescriptionf "Resource '%s' allows all ingress traffic by default"
        [st.resourceBlock.FullName])
  else
    (ingressBlock.GetBlocks "from").foldl noPublicIngressStep st

/-- The rule registered by `no_public_ingress_rule.go`. -/
def noPublicIngressRule : Rule where
  Provider := .KubernetesProvider
  Service := "network"
  ShortCode := "no-public-ingress"
  RequiredTypes := ["resource"]
  RequiredLabels := ["kubernetes_network_policy"]
  DefaultSeverity := .High
  CheckFunc := noPublicIngressCheckFunc

/-! ## The documented examples -/

/-- The `google_storage_bucket` resource of the rule's documented examples,
with the given `uniform_bucket_level_access` lines (line 7 of the snippet). -/
def storageBucketExample (file : String) (uniform : List Attribute) : Block :=
  .mk "resource" ["google_storage_bucket", "static-site"]
    ([ .mk "name" (.KnownLiteral (.scalar (.string "image-store.com"))) ⟨file, 3, 3⟩,
       .mk "location" (.KnownLiteral (.scalar (.string "EU"))) ⟨file, 4, 4⟩,
       .mk "force_destroy" (.KnownLiteral (.scalar (.bool true))) ⟨file, 5, 5⟩ ] ++ uniform)
    [ .mk "website" []
        [ .mk "main_page_suffix" (.KnownLiteral (.scalar (.string "index.html"))) ⟨file, 10, 10⟩,
          .mk "not_found_page" (.KnownLiteral (.scalar (.string "404.html"))) ⟨file, 11, 11⟩ ]
        [] ⟨file, 9, 12⟩,
      .mk "cors" []
        [ .mk "origin" (.KnownLiteral (.list [.string "http://image-store.com"])) ⟨file, 14, 14⟩,
          .mk "method"
            (.KnownLiteral (.list [.string "GET", .string "HEAD", .string "PUT", .string "POST",
              .string "DELETE"])) ⟨file, 15, 15⟩,
          .mk "response_header" (.KnownLiteral (.list [.string "*"])) ⟨file, 16, 16⟩,
          .mk "max_age_seconds" (.KnownLiteral (.scalar (.number 3600))) ⟨file, 17, 17⟩ ]
        [] ⟨file, 13, 18⟩ ]
    ⟨file, 2, 19⟩

/-- The `uniform_bucket_level_access` line of the documented examples, with the
given value. -/
def uniformAttribute (file : String) (v : Value) : Attribute :=
  .mk "uniform_bucket_level_access" v ⟨file, 7, 7⟩

/-- `Documentation.BadExample` of `enable_uniform_bucket_level_access.go`. -/
def enableUblaBadExample : Block :=
  storageBucketExample "bad.tf"
    [uniformAttribute "bad.tf" (.KnownLiteral (.scalar (.bool false)))]

/-- `Documentation.GoodExample` of `enable_uniform_bucket_level_access.go`. -/
def enableUblaGoodExample : Block :=
  storageBucketExample "good.tf"
    [uniformAttribute "good.tf" (.KnownLiteral (.scalar (.bool true)))]

/-- The documented bucket with the `uniform_bucket_level_access` line removed. -/
def enableUblaAbsentExample : Block :=
  storageBucketExample "absent.tf" []

/-- The documented bucket with `uniform_bucket_level_access` set to a value that
is not statically known (e.g. a reference to a data source). -/
def enableUblaUnknownExample : Block :=
  storageBucketExample "unknown.tf" [uniformAttribute "unknown.tf" .Unknown]

/-- Whether the block declares an attribute of the given name. -/
def Block.Declares (b : Block) (name : String) : Bool :=
  b.Attributes.any (fun a =>
    match a with
    | .NilAttribute => false
    | .mk n _ _ => n = name)

/-! ## The documented `no-public-ingress` examples and the findings of the rule -/

/-- A string attribute on one line of a file. -/
def stringAttribute (file name value : String) (line : Nat) : Attribute :=
  .mk name (.KnownLiteral (.scalar (.string value))) ⟨file, line, line⟩

/-- A `ports` block of the documented examples. -/
def portsExample (file port protocol : String) (line : Nat) : Block :=
  .mk "ports" []
    [stringAttribute file "port" port (line + 1),
     stringAttribute file "protocol" protocol (line + 2)]
    [] ⟨file, line, line + 3⟩

/-- An `ip_block` block of the documented examples: a `cidr` and the `except`
list of the snippets. -/
def ipBlockExample (file cidrText : String) (line : Nat) : Block :=
  .mk "ip_block" []
    [stringAttribute file "cidr" cidrText (line + 1),
     .mk "except" (.KnownLiteral (.list [.string "10.0.0.0/24", .string "10.0.1.0/24"]))
       ⟨file, line + 2, line + 5⟩]
    [] ⟨file, line, line + 6⟩

/-- A `from` or `to` block holding one `ip_block`. -/
def peerExample (file kind cidrText : String) (line : Nat) : Block :=
  .mk kind [] [] [ipBlockExample file cidrText (line + 1)] ⟨file, line, line + 8⟩

/-- An `ingress` or `egress` block of the documented examples: two `ports`
blocks and the given peers. -/
def trafficExample (file kind : String) (line : Nat) (peers : List Block) : Block :=
  .mk kind [] []
    ([portsExample file "http" "TCP" (line + 1), portsExample file "8125" "UDP" (line + 5)]
      ++ peers)
    ⟨file, line, line + 19⟩

/-- The `pod_selector` block of the documented examples. -/
def podSelectorExample (file : String) : Block :=
  .mk "pod_selector" [] []
    [ .mk "match_expressions" []
        [stringAttribute file "key" "name" 11,
         stringAttribute file "operator" "In" 12,
         .mk "values" (.KnownLiteral (.list [.string "webfront", .string "api"])) ⟨file, 13, 13⟩]
        [] ⟨file, 10, 14⟩ ]
    ⟨file, 9, 15⟩

/-- A `kubernetes_network_policy` resource with the documented `metadata` and
the given children of its `spec` block. -/
def networkPolicyExample (file label : String) (specChildren : List Block) : Block :=
  .mk "resource" ["kubernetes_network_policy", label] []
    [ .mk "metadata" []
        [stringAttribute file "name" "terraform-example-network-policy" 4,
         stringAttribute file "namespace" "default" 5]
        [] ⟨file, 3, 6⟩,
      .mk "spec" []
        [ .mk "policy_types" (.KnownLiteral (.list [.string "Ingress", .string "Egress"]))
            ⟨file, 59, 59⟩ ]
        specChildren ⟨file, 8, 60⟩ ]
    ⟨file, 2, 61⟩

/-- `Documentation.BadExample` of `no_public_ingress_rule.go`. -/
def noPublicIngressBadExample : Block :=
  networkPolicyExample "bad.tf" "bad_example"
    [podSelectorExample "bad.tf",
     trafficExample "bad.tf" "ingress" 17 [peerExample "bad.tf" "from" "0.0.0.0/0" 27],
     trafficExample "bad.tf" "egress" 38 [peerExample "bad.tf" "to" "0.0.0.0/0" 48]]

/-- `Documentation.GoodExample` of `no_public_ingress_rule.go`. -/
def noPublicIngressGoodExample : Block :=
  networkPolicyExample "good.tf" "good_example"
    [podSelectorExample "good.tf",
     trafficExample "good.tf" "ingress" 17 [peerExample "good.tf" "from" "10.0.0.0/16" 27],
     trafficExample "good.tf" "egress" 38 [peerExample "good.tf" "to" "0.0.0.0/0" 48]]

/-- The documented policy with the `from` block of its `ingress` removed. -/
def noFromExample : Block :=
  networkPolicyExample "nofrom.tf" "no_from"
    [podSelectorExample "nofrom.tf", trafficExample "nofrom.tf" "ingress" 17 []]

/-- The documented policy with the `ingress` block of its `spec` removed. -/
def noIngressExample : Block :=
  networkPolicyExample "noingress.tf" "no_ingress"
    [podSelectorExample "noingress.tf",
     trafficExample "noingress.tf" "egress" 38 [peerExample "noingress.tf" "to" "0.0.0.0/0" 48]]

/-- A policy whose `ingress` lists two `from` blocks, the first private and the
second open. -/
def twoFromExample : Block :=
  networkPolicyExample "twofrom.tf" "two_from"
    [trafficExample "twofrom.tf" "ingress" 17
      [peerExample "twofrom.tf" "from" "10.0.0.0/16" 27,
       peerExample "twofrom.tf" "from" "0.0.0.0/0" 36]]

/-- A policy whose `spec` has two `ingress` blocks: the first admits
"10.0.0.0/16", the second "0.0.0.0/0". -/
def twoIngressExample : Block :=
  networkPolicyExample "twoingress.tf" "two_ingress"
    [trafficExample "twoingress.tf" "ingress" 17
       [peerExample "twoingress.tf" "from" "10.0.0.0/16" 27],
     trafficExample "twoingress.tf" "ingress" 38
       [peerExample "twoingress.tf" "from" "0.0.0.0/0" 48]]

/-- The `cidr` attribute the rule reads from a `from` block. -/
def fromCidr (fromBlock : Block) : Attribute :=
  (fromBlock.GetBlock "ip_block").GetAttribute "cidr"

/-- The finding "allows all ingress traffic by default" for a block. -/
def defaultAllowFinding (b : Block) : Result :=
  { description := "Resource '" ++ b.FullName ++ "' allows all ingress traffic by default",
    severity := none, range := b.Range, annotated := none }

/-- The finding "allows ingress traffic from the internet" for a block,
annotated with a `cidr` attribute. -/
def internetFinding (b : Block) (cidrAttr : Attribute) : Result :=
  { description := "Resource '" ++ b.FullName ++ "' allows ingress traffic from the internet",
    severity := none, range := b.Range, annotated := some cidrAttr }

/-! ## Removing the later `ingress` blocks -/

/-- The block with its child blocks replaced. -/
def Block.withChildren : Block → List Block → Block
  | .NilBlock, _ => .NilBlock
  | .mk t ls as _ r, cs => .mk t ls as cs r

/-- Removes from a sequence every block of the given type after the first. -/
def dropLater (name : String) : List Block → List Block
  | [] => []
  | c :: cs =>
    if c.IsNamed name then c :: cs.filter (fun d => !d.IsNamed name)
    else c :: dropLater name cs

/-- Applies `f` to the first block of the given type in a sequence. -/
def mapFirst (name : String) (f : Block → Block) : List Block → List Block
  | [] => []
  | c :: cs =>
    if c.IsNamed name then f c :: cs else c :: mapFirst name f cs

/-- The same resource with every `ingress` block of its `spec` after the first
removed. -/
def withoutLaterIngress (b : Block) : Block :=
  b.withChildren
    (mapFirst "spec" (fun sp => sp.withChildren (dropLater "ingress" sp.Children)) b.Children)

/-! ## The model against the specification's testable properties -/

theorem Attribute.isNil_iff (a : Attribute) : a.IsNil = true ↔ a = Attribute.NilAttribute := by
  cases a <;> simp [Attribute.IsNil]

theorem Attribute.predicates_false_of_not_known (a : Attribute)
    (h : a.Value = Value.Unknown ∨ a.Value = Value.Absent) :
    a.IsString = false ∧ a.IsTrue = false ∧ cidr.IsOpen a = false := by
  rcases h with h | h <;> simp [Attribute.IsString, Attribute.IsTrue, cidr.IsOpen, h]

theorem Block.nil_lookup (name : String) :
    (Block.NilBlock.GetBlock name) = Block.NilBlock ∧
      Block.NilBlock.GetBlocks name = [] ∧
      Block.NilBlock.GetAttribute name = Attribute.NilAttribute :=
  ⟨rfl, rfl, rfl⟩

theorem cidr.isOpen_examples (n : String) (rg : Range) :
    cidr.IsOpen (.mk n (.KnownLiteral (.scalar (.string "0.0.0.0/0"))) rg) = true ∧
      cidr.IsOpen (.mk n (.KnownLiteral (.scalar (.string "::/0"))) rg) = true ∧
      cidr.IsOpen (.mk n (.KnownLiteral (.scalar (.string "10.0.0.0/16"))) rg) = false ∧
      cidr.IsOpen (.mk n (.KnownLiteral (.scalar (.string "not-a-cidr"))) rg) = false ∧
      cidr.IsOpen (.mk n .Unknown rg) = false :=
  ⟨rfl, rfl, rfl, rfl, rfl⟩

/-! ## Lemmas on the block model -/

theorem Block.findAttribute_eq_nil (name : String) (as : List Attribute)
    (h : (as.any (fun a =>
      match a with
      | .NilAttribute => false
      | .mk n _ _ => n = name)) = false) :
    Block.findAttribute name as = Attribute.NilAttribute := by
  induction as with
  | nil => rfl
  | cons a rest ih =>
    cases a with
    | NilAttribute =>
      simp only [List.any_cons, Bool.false_or] at h
      simpa [Block.findAttribute] using ih h
    | mk n v r =>
      simp only [List.any_cons, Bool.or_eq_false_iff, decide_eq_false_iff_not] at h
      simp [Block.findAttribute, h.1, ih h.2]

theorem Block.getAttribute_of_not_declares (b : Block) (name : String)
    (h : b.Declares name = false) : b.GetAttribute name = Attribute.NilAttribute :=
  Block.findAttribute_eq_nil name b.Attributes h

theorem Sprintf_does_not_have (n : String) :
    Sprintf "Resource '%s' does not have uniform_bucket_level_access enabled." [n]
      = "Resource '" ++ n ++ "' does not have uniform_bucket_level_access enabled." := rfl

theorem Sprintf_explicitly_disabled (n : String) :
    Sprintf "Resource '%s' has uniform_bucket_level_access explicitly disabled." [n]
      = "Resource '" ++ n ++ "' has uniform_bucket_level_access explicitly disabled." := rfl

theorem Sprintf_default_allow (n : String) :
    Sprintf "Resource '%s' allows all ingress traffic by default" [n]
      = "Resource '" ++ n ++ "' allows all ingress traffic by default" := rfl

theorem Sprintf_internet (n : String) :
    Sprintf "Resource '%s' allows ingress traffic from the internet" [n]
      = "Resource '" ++ n ++ "' allows ingress traffic from the internet" := rfl

/-! ## `enable-ubla` -/

/-- C1: a block that declares no `uniform_bucket_level_access` attribute (in
particular every `resource "google_storage_bucket"` block that declares none)
gets exactly one result from the check run on an empty set; its description is
"Resource '<FullName>' does not have uniform_bucket_level_access enabled.", so
it contains "does not have uniform_bucket_level_access enabled"; its range is
the block's range; and its severity, left to the rule's default, is Medium. -/
theorem enableUbla_attribute_absent (b : Block)
    (habsent : b.Declares "uniform_bucket_level_access" = false) :
    ∃ r : Result, enableUblaRule.Check [] b = [r] ∧
      r.description
        = "Resource '" ++ b.FullName ++ "' does not have uniform_bucket_level_access enabled." ∧
      (∃ pre post : String,
        r.description = pre ++ "does not have uniform_bucket_level_access enabled" ++ post) ∧
      r.range = b.Range ∧
      r.annotated = none ∧
      enableUblaRule.DefaultSeverity = Severity.Medium ∧
      enableUblaRule.SeverityOf r = Severity.Medium := by
  have hnil := Block.getAttribute_of_not_declares b _ habsent
  refine ⟨(Result.New b).WithDescription
      (Sprintf "Resource '%s' does not have uniform_bucket_level_access enabled." [b.FullName]),
    ?_, Sprintf_does_not_have b.FullName, ⟨"Resource '" ++ b.FullName ++ "' ", ".", ?_⟩,
    rfl, rfl, rfl, rfl⟩
  · simp [Rule.Check, enableUblaRule, enableUblaCheckFunc, hnil, CheckState.Add]
  · show Sprintf _ _ = _
    rw [Sprintf_does_not_have]
    simp only [String.append_assoc]
    rfl

/-- Witness for C1 on the documented bucket without the attribute line. -/
theorem enableUbla_attribute_absent_witness :
    ∃ r : Result, enableUblaRule.Check [] enableUblaAbsentExample = [r] ∧
      r.description
        = "Resource '" ++ enableUblaAbsentExample.FullName
            ++ "' does not have uniform_bucket_level_access enabled." ∧
      (∃ pre post : String,
        r.description = pre ++ "does not have uniform_bucket_level_access enabled" ++ post) ∧
      r.range = enableUblaAbsentExample.Range ∧
      r.annotated = none ∧
      enableUblaRule.DefaultSeverity = Severity.Medium ∧
      enableUblaRule.SeverityOf r = Severity.Medium :=
  enableUbla_attribute_absent enableUblaAbsentExample (by decide)

/-- C2: when the block's `uniform_bucket_level_access` attribute is the known
literal `false`, the check run on an empty set yields exactly one result; its
range is the attribute's range (so it differs from the block's range whenever
the two ranges differ), it is annotated with that attribute, and its
description is "Resource '<FullName>' has uniform_bucket_level_access
explicitly disabled.". -/
theorem enableUbla_attribute_false (b : Block) (a : Attribute)
    (hattr : b.GetAttribute "uniform_bucket_level_access" = a)
    (hfalse : a.Value = Value.KnownLiteral (.scalar (.bool false))) :
    ∃ r : Result, enableUblaRule.Check [] b = [r] ∧
      r.range = a.Range ∧
      (a.Range ≠ b.Range → r.range ≠ b.Range) ∧
      r.annotated = some a ∧
      r.description
        = "Resource '" ++ b.FullName ++ "' has uniform_bucket_level_access explicitly disabled." ∧
      (∃ pre post : String,
        r.description = pre ++ "has uniform_bucket_level_access explicitly disabled" ++ post) := by
  have hne : a ≠ Attribute.NilAttribute := by
    intro h
    rw [h] at hfalse
    cases hfalse
  have hknown : a.Value.IsKnown = true := by rw [hfalse]; rfl
  have htrue : a.IsTrue = false := by simp [Attribute.IsTrue, hfalse]
  refine ⟨ Result.WithAttributeAnnotation
      (((Result.New b).WithDescription
        (Sprintf "Resource '%s' has uniform_bucket_level_access explicitly disabled."
          [b.FullName])).WithRange a.Range) a,
    ?_, rfl, fun h => h, rfl, Sprintf_explicitly_disabled b.FullName,
    ⟨"Resource '" ++ b.FullName ++ "' ", ".", ?_⟩⟩
  · simp [Rule.Check, enableUblaRule, enableUblaCheckFunc, hattr, hne, hknown, htrue,
      CheckState.Add]
  · show Sprintf _ _ = _
    rw [Sprintf_explicitly_disabled]
    simp only [String.append_assoc]
    rfl

/-- Witness for C2 on the rule's documented bad example. -/
theorem enableUbla_attribute_false_witness :
    ∃ r : Result, enableUblaRule.Check [] enableUblaBadExample = [r] ∧
      r.range = (uniformAttribute "bad.tf" (.KnownLiteral (.scalar (.bool false)))).Range ∧
      r.range ≠ enableUblaBadExample.Range ∧
      r.annotated = some (uniformAttribute "bad.tf" (.KnownLiteral (.scalar (.bool false)))) ∧
      r.description
        = "Resource '" ++ enableUblaBadExample.FullName
            ++ "' has uniform_bucket_level_access explicitly disabled." ∧
      (∃ pre post : String,
        r.description = pre ++ "has uniform_bucket_level_access explicitly disabled" ++ post) :=
  (enableUbla_attribute_false enableUblaBadExample
    (uniformAttribute "bad.tf" (.KnownLiteral (.scalar (.bool false)))) (by decide)
    (by decide)).imp
    (fun _ h => ⟨h.1, h.2.1, h.2.2.1 (by decide), h.2.2.2⟩)

/-- C3: when the block's `uniform_bucket_level_access` attribute is the known
literal `true`, the check adds nothing: the result set is left exactly as it
was, whatever it held. -/
theorem enableUbla_attribute_true (b : Block) (results : List Result)
    (htrue : (b.GetAttribute "uniform_bucket_level_access").Value
      = Value.KnownLiteral (.scalar (.bool true))) :
    enableUblaRule.Check results b = results := by
  have hne : b.GetAttribute "uniform_bucket_level_access" ≠ Attribute.NilAttribute := by
    intro h
    rw [h] at htrue
    cases htrue
  have ht : (b.GetAttribute "uniform_bucket_level_access").IsTrue = true := by
    simp [Attribute.IsTrue, htrue]
  simp [Rule.Check, enableUblaRule, enableUblaCheckFunc, hne, ht]

/-- Witness for C3 on the rule's documented good example. -/
theorem enableUbla_attribute_true_witness :
    enableUblaRule.Check [] enableUblaGoodExample = [] :=
  enableUbla_attribute_true enableUblaGoodExample [] (by decide)

/-- C6: when the block declares `uniform_bucket_level_access` but its value is
Unknown, the check adds nothing; and for any declared attribute, the check
changes the result set only if the value is known and not true. -/
theorem enableUbla_skips_unknown (b : Block) (results : List Result)
    (hdeclared : b.GetAttribute "uniform_bucket_level_access" ≠ Attribute.NilAttribute) :
    ((b.GetAttribute "uniform_bucket_level_access").Value = Value.Unknown →
        enableUblaRule.Check results b = results) ∧
      (enableUblaRule.Check results b ≠ results →
        (b.GetAttribute "uniform_bucket_level_access").Value.IsKnown = true ∧
          (b.GetAttribute "uniform_bucket_level_access").IsTrue = false) := by
  constructor
  · intro hunknown
    have hk : (b.GetAttribute "uniform_bucket_level_access").Value.IsKnown = false := by
      rw [hunknown]; rfl
    simp [Rule.Check, enableUblaRule, enableUblaCheckFunc, hdeclared, hk]
  · intro hchanged
    by_contra hcon
    apply hchanged
    have hcond : ((b.GetAttribute "uniform_bucket_level_access").Value.IsKnown
        && !(b.GetAttribute "uniform_bucket_level_access").IsTrue) = false := by
      cases hk : (b.GetAttribute "uniform_bucket_level_access").Value.IsKnown <;>
        cases ht : (b.GetAttribute "uniform_bucket_level_access").IsTrue <;> simp_all
    simp [Rule.Check, enableUblaRule, enableUblaCheckFunc, hdeclared, hcond]

/-- Witness for C6 on the documented bucket with an Unknown value. -/
theorem enableUbla_skips_unknown_witness :
    enableUblaUnknownExample.GetAttribute "uniform_bucket_level_access"
        ≠ Attribute.NilAttribute ∧
      (enableUblaUnknownExample.GetAttribute "uniform_bucket_level_access").Value
        = Value.Unknown ∧
      enableUblaRule.Check [] enableUblaUnknownExample = [] :=
  ⟨by decide, by decide,
    (enableUbla_skips_unknown enableUblaUnknownExample [] (by decide)).1 (by decide)⟩

/-! ## `no-public-ingress` -/

theorem noPublicIngressStep_eq (st : CheckState) (f : Block) :
    noPublicIngressStep st f
      = ⟨st.set ++ (if (fromCidr f).IsString && cidr.IsOpen (fromCidr f)
            then [internetFinding st.resourceBlock (fromCidr f)] else []),
          st.resourceBlock⟩ := by
  unfold noPublicIngressStep
  simp only [← fromCidr.eq_1]
  cases hs : (fromCidr f).IsString <;> cases ho : cidr.IsOpen (fromCidr f) <;>
    simp [CheckState.AddResult, Result.WithDescriptionf, Result.WithAttribute, Result.New,
      internetFinding, Sprintf_internet]

theorem noPublicIngress_loop (froms : List Block) (st : CheckState) :
    froms.foldl noPublicIngressStep st
      = ⟨st.set ++ (froms.filter (fun f => (fromCidr f).IsString && cidr.IsOpen (fromCidr f))).map
            (fun f => internetFinding st.resourceBlock (fromCidr f)),
          st.resourceBlock⟩ := by
  induction froms generalizing st with
  | nil => simp
  | cons f rest ih =>
    rw [List.foldl_cons, ih, noPublicIngressStep_eq]
    cases h : ((fromCidr f).IsString && cidr.IsOpen (fromCidr f)) <;> simp [h]

theorem noPublicIngress_default (b : Block) (results : List Result)
    (h : (((b.GetBlock "spec").GetBlock "ingress").IsNil
      || (((b.GetBlock "spec").GetBlock "ingress").GetBlocks "from").length == 0) = true) :
    noPublicIngressCheckFunc ⟨results, b⟩ = ⟨results ++ [defaultAllowFinding b], b⟩ := by
  unfold noPublicIngressCheckFunc
  simp only [h, if_true]
  simp [CheckState.AddResult, Result.WithDescriptionf, Result.New, defaultAllowFinding,
    Sprintf_default_allow]

theorem noPublicIngress_from (b : Block) (results : List Result)
    (h : (((b.GetBlock "spec").GetBlock "ingress").IsNil
      || (((b.GetBlock "spec").GetBlock "ingress").GetBlocks "from").length == 0) = false) :
    noPublicIngressCheckFunc ⟨results, b⟩
      = ⟨results ++ ((((b.GetBlock "spec").GetBlock "ingress").GetBlocks "from").filter
            (fun f => (fromCidr f).IsString && cidr.IsOpen (fromCidr f))).map
            (fun f => internetFinding b (fromCidr f)), b⟩ := by
  unfold noPublicIngressCheckFunc
  simp only [h]
  exact noPublicIngress_loop _ _

theorem default_ne_internet (n : String) :
    "Resource '" ++ n ++ "' allows all ingress traffic by default"
      ≠ "Resource '" ++ n ++ "' allows ingress traffic from the internet" := by
  intro h
  have h2 := congrArg String.data h
  simp only [String.data_append, List.append_assoc, List.append_cancel_left_eq] at h2
  revert h2
  decide

theorem Block.getBlock_eq_nil_of_getBlocks_nil (b : Block) (name : String)
    (h : b.GetBlocks name = []) : b.GetBlock name = Block.NilBlock := by
  unfold Block.GetBlock
  rw [h]
  rfl

theorem Block.getBlock_isNil_of_getBlocks_nil (b : Block) (name : String)
    (h : b.GetBlocks name = []) : (b.GetBlock name).IsNil = true := by
  rw [Block.getBlock_eq_nil_of_getBlocks_nil b name h]
  rfl

theorem Block.getBlocks_of_isNil (b : Block) (name : String) (h : b.IsNil = true) :
    b.GetBlocks name = [] := by
  cases b with
  | NilBlock => rfl
  | mk _ _ _ _ _ => simp [Block.IsNil] at h

/-- C4: when `spec.ingress` exists and has no `from` sub-blocks, the check run
on an empty set yields exactly one result, described "Resource '<FullName>'
allows all ingress traffic by default", with the block's range and no
annotation; no result carries the "allows ingress traffic from the internet"
description. -/
theorem noPublicIngress_no_from (b : Block)
    (hexists : ((b.GetBlock "spec").GetBlock "ingress").IsNil = false)
    (hnofrom : ((b.GetBlock "spec").GetBlock "ingress").GetBlocks "from" = []) :
    ∃ r : Result, noPublicIngressRule.Check [] b = [r] ∧
      r.description = "Resource '" ++ b.FullName ++ "' allows all ingress traffic by default" ∧
      r.range = b.Range ∧ r.annotated = none ∧
      ∀ r' ∈ noPublicIngressRule.Check [] b,
        r'.description
          ≠ "Resource '" ++ b.FullName ++ "' allows ingress traffic from the internet" := by
  have hcheck : noPublicIngressRule.Check [] b = [defaultAllowFinding b] := by
    have h := noPublicIngress_default b [] (by simp [hexists, hnofrom])
    simp [Rule.Check, noPublicIngressRule, h]
  refine ⟨defaultAllowFinding b, hcheck, rfl, rfl, rfl, ?_⟩
  intro r' hr'
  rw [hcheck, List.mem_singleton] at hr'
  rw [hr']
  exact default_ne_internet b.FullName

/-- Witness for C4 on the documented policy without its `from` block. -/
theorem noPublicIngress_no_from_witness :
    ∃ r : Result, noPublicIngressRule.Check [] noFromExample = [r] ∧
      r.description
        = "Resource '" ++ noFromExample.FullName ++ "' allows all ingress traffic by default" ∧
      r.range = noFromExample.Range ∧ r.annotated = none ∧
      ∀ r' ∈ noPublicIngressRule.Check [] noFromExample,
        r'.description
          ≠ "Resource '" ++ noFromExample.FullName
              ++ "' allows ingress traffic from the internet" :=
  noPublicIngress_no_from noFromExample (by decide) rfl

/-- C5: when `spec.ingress` has at least one `from` sub-block, the results the
check appends are, in `from` order, one "allows ingress traffic from the
internet" result annotated with the entry's `cidr` attribute for each `from`
entry whose `ip_block.cidr` is a known string that `cidr.IsOpen` accepts, and
nothing for the other entries; an entry with cidr "0.0.0.0/0" is among the
former and an entry with cidr "10.0.0.0/16" among the latter. -/
theorem noPublicIngress_per_from (b : Block) (results : List Result)
    (hfrom : ((b.GetBlock "spec").GetBlock "ingress").GetBlocks "from" ≠ []) :
    noPublicIngressRule.Check results b
        = results ++ ((((b.GetBlock "spec").GetBlock "ingress").GetBlocks "from").filter
            (fun f => (fromCidr f).IsString && cidr.IsOpen (fromCidr f))).map
            (fun f =>
              { description :=
                  "Resource '" ++ b.FullName ++ "' allows ingress traffic from the internet",
                severity := none, range := b.Range, annotated := some (fromCidr f) }) ∧
      (∀ (f : Block) (n : String) (rg : Range),
        fromCidr f = .mk n (.KnownLiteral (.scalar (.string "0.0.0.0/0"))) rg →
          ((fromCidr f).IsString && cidr.IsOpen (fromCidr f)) = true) ∧
      (∀ (f : Block) (n : String) (rg : Range),
        fromCidr f = .mk n (.KnownLiteral (.scalar (.string "10.0.0.0/16"))) rg →
          ((fromCidr f).IsString && cidr.IsOpen (fromCidr f)) = false) := by
  refine ⟨?_, ?_, ?_⟩
  · have hnil : ((b.GetBlock "spec").GetBlock "ingress").IsNil = false := by
      cases h : ((b.GetBlock "spec").GetBlock "ingress").IsNil
      · rfl
      · exact absurd (Block.getBlocks_of_isNil _ "from" h) hfrom
    have h := noPublicIngress_from b results (by simp [hnil, hfrom])
    simp only [Rule.Check, noPublicIngressRule, h]
    rfl
  · intro f n rg hf
    rw [hf]
    rfl
  · intro f n rg hf
    rw [hf]
    rfl

/-- Witness for C5 on a policy with a private and an open `from` entry. -/
theorem noPublicIngress_per_from_witness :
    noPublicIngressRule.Check [] twoFromExample
      = [{ description :=
             "Resource '" ++ twoFromExample.FullName
               ++ "' allows ingress traffic from the internet",
           severity := none, range := twoFromExample.Range,
           annotated := some (stringAttribute "twofrom.tf" "cidr" "0.0.0.0/0" 38) }] :=
  (noPublicIngress_per_from twoFromExample [] (List.ne_nil_of_length_pos (by decide))).1.trans
    (by decide)

/-- C7: when the block has no `spec` child, or its `spec` has no `ingress`
child, the chained lookup `GetBlock("spec").GetBlock("ingress")` is a total
computation whose result is the nil block, and the check run on an empty set
yields exactly one result, the "allows all ingress traffic by default" one. -/
theorem noPublicIngress_nil_safe (b : Block)
    (hmissing : b.GetBlocks "spec" = [] ∨ (b.GetBlock "spec").GetBlocks "ingress" = []) :
    ((b.GetBlock "spec").GetBlock "ingress") = Block.NilBlock ∧
      ((b.GetBlock "spec").GetBlock "ingress").IsNil = true ∧
      ∃ r : Result, noPublicIngressRule.Check [] b = [r] ∧
        r.description
          = "Resource '" ++ b.FullName ++ "' allows all ingress traffic by default" ∧
        r.range = b.Range ∧ r.annotated = none := by
  have hnone : (b.GetBlock "spec").GetBlocks "ingress" = [] := by
    rcases hmissing with h | h
    · exact Block.getBlocks_of_isNil _ _ (Block.getBlock_isNil_of_getBlocks_nil b "spec" h)
    · exact h
  have hnil := Block.getBlock_isNil_of_getBlocks_nil (b.GetBlock "spec") "ingress" hnone
  refine ⟨Block.getBlock_eq_nil_of_getBlocks_nil _ _ hnone, hnil, defaultAllowFinding b, ?_,
    rfl, rfl, rfl⟩
  have h := noPublicIngress_default b [] (by simp [hnil])
  simp [Rule.Check, noPublicIngressRule, h]

/-- Witness for C7 on the documented policy without its `ingress` block. -/
theorem noPublicIngress_nil_safe_witness :
    ((noIngressExample.GetBlock "spec").GetBlock "ingress") = Block.NilBlock ∧
      ((noIngressExample.GetBlock "spec").GetBlock "ingress").IsNil = true ∧
      ∃ r : Result, noPublicIngressRule.Check [] noIngressExample = [r] ∧
        r.description
          = "Resource '" ++ noIngressExample.FullName
              ++ "' allows all ingress traffic by default" ∧
        r.range = noIngressExample.Range ∧ r.annotated = none :=
  noPublicIngress_nil_safe noIngressExample (Or.inr rfl)

/-- C8: on the rule's documented bad example, whose ingress `ip_block` has cidr
"0.0.0.0/0" and a non-empty `except` list, the check yields exactly one result,
the "allows ingress traffic from the internet" one annotated with that cidr; on
the documented good example, whose ingress cidr is "10.0.0.0/16" and whose
egress `to.ip_block.cidr` is the open "0.0.0.0/0", it yields no result.  The
rule applies to both blocks. -/
theorem noPublicIngress_documented_examples :
    (noPublicIngressRule.Applies noPublicIngressBadExample = true ∧
      (((((noPublicIngressBadExample.GetBlock "spec").GetBlock "ingress").GetBlock
          "from").GetBlock "ip_block").GetAttribute "except").Value
        = .KnownLiteral (.list [.string "10.0.0.0/24", .string "10.0.1.0/24"]) ∧
      noPublicIngressRule.Check [] noPublicIngressBadExample
        = [{ description :=
               "Resource '" ++ noPublicIngressBadExample.FullName
                 ++ "' allows ingress traffic from the internet",
             severity := none, range := noPublicIngressBadExample.Range,
             annotated := some (stringAttribute "bad.tf" "cidr" "0.0.0.0/0" 29) }]) ∧
    (noPublicIngressRule.Applies noPublicIngressGoodExample = true ∧
      ((((noPublicIngressGoodExample.GetBlock "spec").GetBlock "egress").GetBlock
          "to").GetBlock "ip_block").GetAttribute "cidr"
        = stringAttribute "good.tf" "cidr" "0.0.0.0/0" 50 ∧
      cidr.IsOpen (stringAttribute "good.tf" "cidr" "0.0.0.0/0" 50) = true ∧
      noPublicIngressRule.Check [] noPublicIngressGoodExample = []) := by
  decide

/-! ## Frame -/

theorem enableUbla_frame (b : Block) (results : List Result) :
    enableUblaCheckFunc ⟨results, b⟩
      = ⟨results ++ (enableUblaCheckFunc ⟨[], b⟩).set, b⟩ := by
  unfold enableUblaCheckFunc
  by_cases hnil : b.GetAttribute "uniform_bucket_level_access" = Attribute.NilAttribute
  · simp [hnil, CheckState.Add]
  · cases hc : ((b.GetAttribute "uniform_bucket_level_access").Value.IsKnown
        && !(b.GetAttribute "uniform_bucket_level_access").IsTrue) <;>
      simp [hnil, hc, CheckState.Add]

theorem noPublicIngress_frame (b : Block) (results : List Result) :
    noPublicIngressCheckFunc ⟨results, b⟩
      = ⟨results ++ (noPublicIngressCheckFunc ⟨[], b⟩).set, b⟩ := by
  cases h : (((b.GetBlock "spec").GetBlock "ingress").IsNil
      || (((b.GetBlock "spec").GetBlock "ingress").GetBlocks "from").length == 0)
  · rw [noPublicIngress_from b results h, noPublicIngress_from b [] h]
    simp
  · rw [noPublicIngress_default b results h, noPublicIngress_default b [] h]
    simp

/-- C9: both check functions only append to the result set they are given.
For every block and every initial content of the set, the state after the call
is the initial content followed by the results the call adds, those added
results are the ones the call adds to an empty set (so they do not depend on
the initial content), and the block is the one passed in, unchanged. -/
theorem checkFuncs_only_append (b : Block) (results : List Result) :
    enableUblaRule.CheckFunc ⟨results, b⟩
        = ⟨results ++ enableUblaRule.Check [] b, b⟩ ∧
      noPublicIngressRule.CheckFunc ⟨results, b⟩
        = ⟨results ++ noPublicIngressRule.Check [] b, b⟩ :=
  ⟨enableUbla_frame b results, noPublicIngress_frame b results⟩

/-! ## Only the first `ingress` block is inspected -/

theorem firstOrNil_filter_dropLater (name : String) (cs : List Block) :
    Block.firstOrNil ((dropLater name cs).filter (Block.IsNamed name))
      = Block.firstOrNil (cs.filter (Block.IsNamed name)) := by
  induction cs with
  | nil => rfl
  | cons c cs ih =>
    cases h : Block.IsNamed name c
    · have hd : dropLater name (c :: cs) = c :: dropLater name cs := by
        simp only [dropLater, h, Bool.false_eq_true, if_false]
      have hn : ¬ Block.IsNamed name c = true := by simp only [h, Bool.false_eq_true,
        not_false_eq_true]
      rw [hd, List.filter_cons_of_neg hn, List.filter_cons_of_neg hn]
      exact ih
    · have hd : dropLater name (c :: cs) = c :: cs.filter (fun d => !d.IsNamed name) := by
        simp only [dropLater, h, if_true]
      rw [hd, List.filter_cons_of_pos h, List.filter_cons_of_pos h]
      rfl

theorem firstOrNil_filter_mapFirst (name : String) (f : Block → Block)
    (hnil : f Block.NilBlock = Block.NilBlock)
    (hkeep : ∀ c : Block, (f c).IsNamed name = c.IsNamed name)
    (cs : List Block) :
    Block.firstOrNil ((mapFirst name f cs).filter (Block.IsNamed name))
      = f (Block.firstOrNil (cs.filter (Block.IsNamed name))) := by
  induction cs with
  | nil => simp [mapFirst, Block.firstOrNil, hnil]
  | cons c cs ih =>
    cases h : Block.IsNamed name c
    · have hd : mapFirst name f (c :: cs) = c :: mapFirst name f cs := by
        simp only [mapFirst, h, Bool.false_eq_true, if_false]
      have hn : ¬ Block.IsNamed name c = true := by simp only [h, Bool.false_eq_true,
        not_false_eq_true]
      rw [hd, List.filter_cons_of_neg hn, List.filter_cons_of_neg hn]
      exact ih
    · have hf : Block.IsNamed name (f c) = true := by rw [hkeep c, h]
      have hd : mapFirst name f (c :: cs) = f c :: cs := by
        simp only [mapFirst, h, if_true]
      rw [hd, List.filter_cons_of_pos hf, List.filter_cons_of_pos h]
      rfl

theorem Block.withChildren_keeps (sp : Block) (cs : List Block) (name : String) :
    (sp.withChildren cs).IsNamed name = sp.IsNamed name := by
  cases sp <;> rfl

theorem Block.getBlock_withChildren (b : Block) (cs : List Block) (name : String)
    (hb : b.IsNil = false) :
    (b.withChildren cs).GetBlock name = Block.firstOrNil (cs.filter (Block.IsNamed name)) := by
  cases b with
  | NilBlock => simp [Block.IsNil] at hb
  | mk _ _ _ _ _ => rfl

theorem withoutLaterIngress_fullName (b : Block) :
    (withoutLaterIngress b).FullName = b.FullName := by
  cases b <;> rfl

theorem withoutLaterIngress_range (b : Block) :
    (withoutLaterIngress b).Range = b.Range := by
  cases b <;> rfl

theorem withoutLaterIngress_ingress (b : Block) :
    ((withoutLaterIngress b).GetBlock "spec").GetBlock "ingress"
      = (b.GetBlock "spec").GetBlock "ingress" := by
  cases b with
  | NilBlock => rfl
  | mk t ls as cs r =>
    have hspec : (withoutLaterIngress (.mk t ls as cs r)).GetBlock "spec"
        = ((Block.mk t ls as cs r).GetBlock "spec").withChildren
            (dropLater "ingress" ((Block.mk t ls as cs r).GetBlock "spec").Children) := by
      unfold withoutLaterIngress
      rw [Block.getBlock_withChildren (Block.mk t ls as cs r) _ _ rfl]
      exact firstOrNil_filter_mapFirst "spec" _ rfl
        (fun c => Block.withChildren_keeps c _ "spec") cs
    rw [hspec]
    cases hs : (Block.mk t ls as cs r).GetBlock "spec" with
    | NilBlock => rfl
    | mk t2 ls2 as2 cs2 r2 =>
      rw [Block.getBlock_withChildren (Block.mk t2 ls2 as2 cs2 r2) _ _ rfl]
      exact firstOrNil_filter_dropLater "ingress" cs2

/-- C10: the check inspects only the first `ingress` block of `spec`.  For
every block and every initial set, its results on the block equal its results
on the same block with every `ingress` block of `spec` after the first
removed.  On a policy whose `spec` has two `ingress` blocks, the first with a
`from` of cidr "10.0.0.0/16" and the second with a `from` of cidr "0.0.0.0/0",
the check yields no result although the second `ingress` block is open to the
internet. -/
theorem noPublicIngress_first_ingress_only :
    (∀ (b : Block) (results : List Result),
      noPublicIngressRule.Check results b
        = noPublicIngressRule.Check results (withoutLaterIngress b)) ∧
    ((twoIngressExample.GetBlock "spec").GetBlocks "ingress").length = 2 ∧
    (((withoutLaterIngress twoIngressExample).GetBlock "spec").GetBlocks "ingress").length = 1 ∧
    (((twoIngressExample.GetBlock "spec").GetBlocks "ingress").map
        (fun ingress => (ingress.GetBlocks "from").map fromCidr)
      = [[stringAttribute "twoingress.tf" "cidr" "10.0.0.0/16" 29],
         [stringAttribute "twoingress.tf" "cidr" "0.0.0.0/0" 50]]) ∧
    cidr.IsOpen (stringAttribute "twoingress.tf" "cidr" "0.0.0.0/0" 50) = true ∧
    noPublicIngressRule.Check [] twoIngressExample = [] := by
  refine ⟨?_, by decide, by decide, by decide, by decide, by decide⟩
  intro b results
  have hing := withoutLaterIngress_ingress b
  simp only [Rule.Check, noPublicIngressRule]
  cases h : (((b.GetBlock "spec").GetBlock "ingress").IsNil
      || (((b.GetBlock "spec").GetBlock "ingress").GetBlocks "from").length == 0)
  · rw [noPublicIngress_from b results h,
      noPublicIngress_from (withoutLaterIngress b) results (by rw [hing]; exact h)]
    simp only [hing, withoutLaterIngress_fullName, withoutLaterIngress_range, internetFinding]
  · rw [noPublicIngress_default b results h,
      noPublicIngress_default (withoutLaterIngress b) results (by rw [hing]; exact h)]
    simp only [defaultAllowFinding, withoutLaterIngress_fullName, withoutLaterIngress_range]

end Tfsec
